import Mathlib

/-!
Verification of the interview-practice chat application (part4):
shallow embedding of `security.py`, `chat_handler.py`, `llm_provider.py`
and `session_manager.py`, followed by theorems about the embedded code.
-/

namespace Sprint1

/-! ## security.py -/

/-- Characters treated as whitespace by Python's `str.strip` and by `\s`
in `re` patterns over `str` (the Unicode whitespace set). -/
def isPySpace (c : Char) : Bool :=
  let n := c.toNat
  (9 ≤ n && n ≤ 13) || (28 ≤ n && n ≤ 32) || n = 133 || n = 160 || n = 5760 ||
  (8192 ≤ n && n ≤ 8202) || n = 8232 || n = 8233 || n = 8239 || n = 8287 || n = 12288

/-- Python `str.strip()`: drop leading and trailing whitespace. -/
def pyStrip (l : List Char) : List Char :=
  (((l.dropWhile isPySpace).reverse.dropWhile isPySpace)).reverse

/-- Worker for `re.sub(r'\s+', ' ', text)`: each maximal run of whitespace
becomes a single space.  The flag records whether we are inside a run whose
replacement space has already been emitted. -/
def collapseWsAux : Bool → List Char → List Char
  | _, [] => []
  | inRun, c :: rest =>
    if isPySpace c then
      if inRun then collapseWsAux true rest
      else ' ' :: collapseWsAux true rest
    else c :: collapseWsAux false rest

/-- Embeds `re.sub(r'\s+', ' ', text)`. -/
def collapseWs (l : List Char) : List Char := collapseWsAux false l

/-- Worker for `re.sub(r'<[^>]*>', '', text)`.  `pending = some buf` means a
`<` was seen and `buf` (reversed) holds the characters read since, none of
which is `>`; if a `>` arrives the whole candidate tag is dropped, and if the
input ends first the held characters are emitted unchanged (no match). -/
def removeTagsAux : Option (List Char) → List Char → List Char
  | none, [] => []
  | some buf, [] => '<' :: buf.reverse
  | none, c :: rest =>
    if c = '<' then removeTagsAux (some []) rest
    else c :: removeTagsAux none rest
  | some buf, c :: rest =>
    if c = '>' then removeTagsAux none rest
    else removeTagsAux (some (c :: buf)) rest

/-- Embeds `re.sub(r'<[^>]*>', '', text)`. -/
def removeTags (l : List Char) : List Char := removeTagsAux none l

/-- Case-insensitive prefix test: does `s` start with the (lowercase)
pattern `pat`?  ASCII case folding, as in `(?i)` over ASCII patterns. -/
def ciStarts : List Char → List Char → Bool
  | [], _ => true
  | _ :: _, [] => false
  | p :: ps, c :: cs => Char.toLower c = p && ciStarts ps cs

/-- Case-insensitive prefix removal: strip the (lowercase) pattern `pat`
from the front of `s`, returning the remainder. -/
def dropCi : List Char → List Char → Option (List Char)
  | [], s => some s
  | _ :: _, [] => none
  | p :: ps, c :: cs => if Char.toLower c = p then dropCi ps cs else none

/-- For `re.sub(r'(?i)<script.*?</script>', '', text)`: find the earliest
closing `</script>` (case-insensitively) reachable without crossing a
newline (`.` does not match newline), returning the text after it. -/
def findScriptClose : List Char → Option (List Char)
  | [] => none
  | c :: rest =>
    if ciStarts ("</script>".data) (c :: rest) then some (rest.drop 8)
    else if c = '\n' then none
    else findScriptClose rest

/-- Fuelled worker for `re.sub(r'(?i)<script.*?</script>', '', text)`:
leftmost match starts at a case-insensitive `<script`, the lazy middle ends
at the earliest `</script>`.  Every recursive call consumes at least one
character, so fuel equal to the length of the input never runs out. -/
def removeScriptsFuel : Nat → List Char → List Char
  | 0, l => l
  | _ + 1, [] => []
  | fuel + 1, c :: rest =>
    if ciStarts ("<script".data) (c :: rest) then
      match findScriptClose (rest.drop 6) with
      | some r => removeScriptsFuel fuel r
      | none => c :: removeScriptsFuel fuel rest
    else c :: removeScriptsFuel fuel rest

/-- Embeds `re.sub(r'(?i)<script.*?</script>', '', text)`. -/
def removeScripts (l : List Char) : List Char := removeScriptsFuel l.length l

/-- Embeds `sanitize_input` from security.py, on character lists: collapse
whitespace on the stripped text, remove angle-bracket tags, remove script
blocks. -/
def sanitizeList (l : List Char) : List Char :=
  removeScripts (removeTags (collapseWs (pyStrip l)))

/-- Embeds `sanitize_input(text)` from security.py. -/
def sanitize_input (s : String) : String := ⟨sanitizeList s.data⟩

/-- Embeds `MAX_PROMPT_LENGTH` from security.py. -/
def MAX_PROMPT_LENGTH : Nat := 5000

/-- Embeds `validate_input_length(text, max_length)` from security.py. -/
def validate_input_length (text : List Char) (max_length : Nat := MAX_PROMPT_LENGTH) :
    Bool × String :=
  if max_length < text.length then
    (false, "Input too long. Maximum " ++ toString max_length ++ " characters allowed.")
  else (true, "")

/-- Continuation returning true: the rest of a pattern after the last
mandatory piece matched. -/
def anyRest : List Char → Bool := fun _ => true

/-- Match the (lowercase) literal `pat` case-insensitively at the front of
the text, then continue with `cont` on the remainder. -/
def matchCi (pat : List Char) (cont : List Char → Bool) (s : List Char) : Bool :=
  match dropCi pat s with
  | some r => cont r
  | none => false

/-- Embeds `\s*` then `cont`: some (possibly empty) run of leading whitespace can
be consumed so that `cont` accepts the remainder. -/
def afterWsStar (cont : List Char → Bool) : List Char → Bool
  | [] => cont []
  | c :: rest => cont (c :: rest) || (isPySpace c && afterWsStar cont rest)

/-- Embeds `\s+` then `cont`: at least one whitespace character, then as `\s*`. -/
def afterWsPlus (cont : List Char → Bool) : List Char → Bool
  | [] => false
  | c :: rest => isPySpace c && afterWsStar cont rest

/-- Embeds `re.search`: the position pattern `p` matches at some suffix of the
text (including the empty suffix at the end). -/
def reSearch (p : List Char → Bool) : List Char → Bool
  | [] => p []
  | c :: rest => p (c :: rest) || reSearch p rest

/-- Embeds `(?i)system\s*prompt` at the current position. -/
def patSystemPromptAt : List Char → Bool :=
  matchCi ("system".data) (afterWsStar (matchCi ("prompt".data) anyRest))

/-- Embeds `(previous|above|all)\s+instructions?` at the current position
(the optional final `s` never affects whether a match exists). -/
def patIgnoreTail : List Char → Bool := fun r =>
  matchCi ("previous".data) (afterWsPlus (matchCi ("instruction".data) anyRest)) r ||
  matchCi ("above".data) (afterWsPlus (matchCi ("instruction".data) anyRest)) r ||
  matchCi ("all".data) (afterWsPlus (matchCi ("instruction".data) anyRest)) r

/-- Embeds `(?i)ignore\s+(previous|above|all)\s+instructions?` at the current
position. -/
def patIgnoreInstructionsAt : List Char → Bool :=
  matchCi ("ignore".data) (afterWsPlus patIgnoreTail)

/-- The negative lookahead `(?!interviewer|hr|recruiter|career\s+coach)`:
true when none of the allowed roles matches here. -/
def patNotAllowedRole (r : List Char) : Bool :=
  !(ciStarts ("interviewer".data) r || ciStarts ("hr".data) r ||
    ciStarts ("recruiter".data) r ||
    matchCi ("career".data) (afterWsPlus (matchCi ("coach".data) anyRest)) r)

/-- Embeds `(?i)act\s+as\s+(?!interviewer|hr|recruiter|career\s+coach)` at the
current position; the `\s+` before the lookahead may match any nonempty
piece of the whitespace run, as under backtracking. -/
def patActAsAt : List Char → Bool :=
  matchCi ("act".data) (afterWsPlus (matchCi ("as".data) (afterWsPlus patNotAllowedRole)))

/-- Embeds `(?i)pretend\s+to\s+be` at the current position. -/
def patPretendToBeAt : List Char → Bool :=
  matchCi ("pretend".data)
    (afterWsPlus (matchCi ("to".data) (afterWsPlus (matchCi ("be".data) anyRest))))

/-- Embeds `(?i)jailbreak` at the current position. -/
def patJailbreakAt : List Char → Bool := matchCi ("jailbreak".data) anyRest

/-- Embeds `(?i)prompt\s+injection` at the current position. -/
def patPromptInjectionAt : List Char → Bool :=
  matchCi ("prompt".data) (afterWsPlus (matchCi ("injection".data) anyRest))

/-- Embeds `BLOCKED_PATTERNS` from security.py: each regex source string paired
with its matcher (searched at every position, as `re.search`). -/
def BLOCKED_PATTERNS : List (String × (List Char → Bool)) :=
  [("(?i)system\\s*prompt", reSearch patSystemPromptAt),
   ("(?i)ignore\\s+(previous|above|all)\\s+instructions?", reSearch patIgnoreInstructionsAt),
   ("(?i)act\\s+as\\s+(?!interviewer|hr|recruiter|career\\s+coach)", reSearch patActAsAt),
   ("(?i)pretend\\s+to\\s+be", reSearch patPretendToBeAt),
   ("(?i)jailbreak", reSearch patJailbreakAt),
   ("(?i)prompt\\s+injection", reSearch patPromptInjectionAt)]

/-- Embeds `check_blocked_patterns(text)` from security.py. -/
def check_blocked_patterns (text : List Char) : Bool × List String :=
  let found := (BLOCKED_PATTERNS.filter (fun p => p.2 text)).map (fun p => p.1)
  (!found.isEmpty, found)

/-- Plain prefix test (pattern first). -/
def startsWithList : List Char → List Char → Bool
  | [], _ => true
  | _ :: _, [] => false
  | p :: ps, c :: cs => p = c && startsWithList ps cs

/-- Python's substring test `needle in haystack`. -/
def containsSub (needle : List Char) : List Char → Bool
  | [] => needle.isEmpty
  | c :: rest => startsWithList needle (c :: rest) || containsSub needle rest

/-- Embeds `SENSITIVE_TERMS` from security.py. -/
def SENSITIVE_TERMS : List String :=
  ["api_key", "password", "secret", "token", "credential",
   "ssh", "private_key", "database", "admin", "root"]

/-- Embeds `check_sensitive_terms(text)` from security.py: terms found in the
lowercased text. -/
def check_sensitive_terms (text : List Char) : Bool × List String :=
  let text_lower := text.map Char.toLower
  let found := SENSITIVE_TERMS.filter (fun t => containsSub t.data text_lower)
  (!found.isEmpty, found)

/-- Embeds `validate_interview_input(user_input)` from security.py: length check,
then blocked patterns, then sensitive terms. -/
def validate_interview_input (user_input : List Char) : Bool × String :=
  let lenCheck := validate_input_length user_input
  if lenCheck.1 = false then (false, lenCheck.2)
  else if (check_blocked_patterns user_input).1 then
    (false, "Input contains potentially harmful patterns. Please rephrase your question.")
  else
    let sens := check_sensitive_terms user_input
    if sens.1 then
      (false, "Input contains sensitive terms: " ++ String.intercalate ", " sens.2 ++
        ". Please focus on interview-related topics.")
    else (true, "")

/-- Embeds `sanitize_and_validate(user_input)` from security.py: sanitize first,
then validate the sanitized text; returns
(is_valid, sanitized_input, error_message). -/
def sanitize_and_validate (user_input : String) : Bool × String × String :=
  let sanitized := sanitizeList user_input.data
  let check := validate_interview_input sanitized
  (check.1, ⟨sanitized⟩, check.2)

/-! ## chat_handler.py -/

/-- Outcome of `ChatHandler.process_user_input`, with a flag recording
whether the LLM backend's `chat` was invoked. -/
structure ProcessOutcome where
  success : Bool
  message : String
  backendInvoked : Bool
  deriving DecidableEq, Repr

/-- Embeds `ChatHandler.process_user_input(user_input)` from chat_handler.py.
The backend (`self.llm_provider.chat`, which always returns a string) is
abstracted as a function of the sanitized input. -/
def process_user_input (backend : String → String) (user_input : String) :
    ProcessOutcome :=
  let check := sanitize_and_validate user_input
  if check.1 = false then
    ⟨false, "Security Check Failed: " ++ check.2.2, false⟩
  else
    ⟨true, backend check.2.1, true⟩

/-- The STAR-method reminder appended by `ResponseValidator.enhance_response`
(characters exactly as in the source file). -/
def star_reminder : String :=
  "\n\nðŸ’¡ *Remember to use the STAR method: Situation, Task, Action, Result*"

/-- The follow-up hint for short technical answers. -/
def tech_hint : String :=
  "\n\nðŸ’¡ *Feel free to ask follow-up questions for clarification*"

/-- The scalability hint for system-design answers. -/
def design_hint : String :=
  "\n\nðŸ’¡ *Consider discussing scalability, reliability, and performance*"

/-- Embeds `ResponseValidator.enhance_response(response, category)` from
chat_handler.py. -/
def enhance_response (response : String) (category : String) : String :=
  if category = "Behavioral Questions" ∧
      containsSub ("star".data) (response.data.map Char.toLower) = false then
    response ++ star_reminder
  else if category = "Technical Questions" ∧ response.length < 100 then
    response ++ tech_hint
  else if category = "System Design" ∧
      containsSub ("scalability".data) (response.data.map Char.toLower) = false then
    response ++ design_hint
  else response

/-! ## llm_provider.py -/

/-- Outcome of one `POST /api/generate` attempt, as observed by
`_chat_ollama`: either an HTTP reply (status, the parsed `response` JSON
field when present, and the raw body text), or one of the caught
exceptions. -/
inductive PostOutcome where
  | reply (status : Nat) (jsonResponse : Option String) (text : String)
  | timeoutExc
  | connectExc
  | otherExc (msg : String)
  deriving DecidableEq, Repr

/-- The simulated environment for one run of `_chat_ollama`: what the
availability probe reports before attempt `i`, and what the `i`-th POST
does. -/
structure OllamaEnv where
  avail : Nat → Bool
  post : Nat → PostOutcome

/-- Observable result of `_chat_ollama`: the returned string, the number of
POST attempts actually made, and the backoff delays slept (in seconds, in
order, in seconds — the float `base_delay = 1.0` is exact, so delays
are the naturals `1 * 2 ^ attempt`). -/
structure ChatResult where
  text : String
  posts : Nat
  sleeps : List Nat
  deriving DecidableEq, Repr

/-- Python `str(...)` of the response text via `.strip()`. -/
def pyStripStr (s : String) : String := ⟨pyStrip s.data⟩

/-- A single-quote character (code point 39), kept out of literals. -/
def squote : String := ⟨[Char.ofNat 39]⟩

/-- The loop body of `_chat_ollama` from llm_provider.py, iterating over
`range(max_retries + 1)`; `posts` counts POSTs made and `sleeps` holds the
delays slept so far (most recent first). -/
def chatOllamaLoop (env : OllamaEnv) (ollamaModel baseUrl : String)
    (maxRetries : Nat) (baseDelay : Nat) :
    List Nat → Nat → List Nat → ChatResult
  | [], posts, sleeps =>
    ⟨"Failed to get response after multiple attempts.", posts, sleeps.reverse⟩
  | attempt :: rest, posts, sleeps =>
    if env.avail attempt = false then
      ⟨"Ollama is not running or model " ++ squote ++ ollamaModel ++ squote ++
        " is not available. Please start Ollama and ensure the model is installed.",
        posts, sleeps.reverse⟩
    else
      match env.post attempt with
      | .reply status jsonResponse text =>
        if status = 200 then
          ⟨pyStripStr (jsonResponse.getD "No response received"), posts + 1, sleeps.reverse⟩
        else
          if attempt < maxRetries then
            chatOllamaLoop env ollamaModel baseUrl maxRetries baseDelay rest
              (posts + 1) (baseDelay * 2 ^ attempt :: sleeps)
          else
            ⟨"Ollama API error: " ++ toString status ++ " - " ++ text,
              posts + 1, sleeps.reverse⟩
      | .timeoutExc =>
        if attempt < maxRetries then
          chatOllamaLoop env ollamaModel baseUrl maxRetries baseDelay rest
            (posts + 1) (baseDelay * 2 ^ attempt :: sleeps)
        else
          ⟨"Ollama request timed out after " ++ toString (attempt + 1) ++
            " attempts. The model might be processing a complex request or the system is overloaded. Try again with a shorter prompt or restart Ollama.",
            posts + 1, sleeps.reverse⟩
      | .connectExc =>
        ⟨"Cannot connect to Ollama at " ++ baseUrl ++
          ". Please ensure Ollama is running with: ollama serve",
          posts + 1, sleeps.reverse⟩
      | .otherExc msg =>
        if attempt < maxRetries then
          chatOllamaLoop env ollamaModel baseUrl maxRetries baseDelay rest
            (posts + 1) (baseDelay * 2 ^ attempt :: sleeps)
        else
          ⟨"Error with Ollama: " ++ msg, posts + 1, sleeps.reverse⟩

/-- Embeds `_chat_ollama` from llm_provider.py: `max_retries = 2`,
`base_delay = 1.0`, loop over `range(max_retries + 1)`. -/
def chat_ollama (env : OllamaEnv) (ollamaModel baseUrl : String) : ChatResult :=
  chatOllamaLoop env ollamaModel baseUrl 2 1 (List.range (2 + 1)) 0 []

/-- Exception kinds caught by `_is_ollama_available`. -/
inductive ProbeExc where
  | timeoutExc
  | connectExc
  | otherExc
  deriving DecidableEq, Repr

/-- Outcome of the `GET /api/tags` probe: an HTTP reply carrying, for each
entry of the `models` list, its optional `name` field; or an exception. -/
inductive TagsOutcome where
  | reply (status : Nat) (models : List (Option String))
  | exc (e : ProbeExc)
  deriving DecidableEq, Repr

/-- Embeds `_is_ollama_available` from llm_provider.py: true only for a 200 reply
in which some model name (defaulting to "") starts with the configured
model name; all exceptions give false. -/
def is_ollama_available (ollamaModel : String) (o : TagsOutcome) : Bool :=
  match o with
  | .reply status models =>
    if status = 200 then
      models.any (fun name => startsWithList ollamaModel.data (name.getD "").data)
    else false
  | .exc _ => false

/-- The backend selected by `LLMProvider.__init__`. -/
inductive ProviderKind where
  | openai
  | ollama
  deriving DecidableEq, Repr

/-- The configuration derived by `LLMProvider.__init__`. -/
structure ProviderConfig where
  provider : ProviderKind
  ollamaBaseUrl : String
  ollamaModel : String
  deriving DecidableEq, Repr

/-- Embeds `LLMProvider.__init__` from llm_provider.py, with the process
environment abstracted as a partial map from variable names to values.
`openai` is selected exactly when `OPENAI_API_KEY` is set and truthy and
its `strip()` is truthy. -/
def llm_provider_init (env : String → Option String) : ProviderConfig :=
  let openai_api_key := env "OPENAI_API_KEY"
  let ollama_base_url := (env "OLLAMA_BASE_URL").getD "http://localhost:11434"
  let ollama_model := (env "OLLAMA_MODEL").getD "gemma2:4b"
  match openai_api_key with
  | some key =>
    if key ≠ "" ∧ pyStrip key.data ≠ [] then
      ⟨.openai, ollama_base_url, ollama_model⟩
    else
      ⟨.ollama, ollama_base_url, ollama_model⟩
  | none => ⟨.ollama, ollama_base_url, ollama_model⟩

/-! ## session_manager.py -/

/-- A chat message as stored in `st.session_state.messages`. -/
structure ChatMessage where
  role : String
  content : String
  deriving DecidableEq, Repr

/-- A record appended by `save_current_session`. -/
structure SessionRecord where
  timestamp : String
  category : String
  messages : List ChatMessage
  deriving DecidableEq, Repr

/-- Embeds `SessionManager.max_sessions` from session_manager.py. -/
def max_sessions : Nat := 50

/-- Embeds `SessionManager.save_current_session` from session_manager.py, on the
happy path (no IO failure): `store` is the loaded history, `now` the
timestamp, and the current transcript is `(category, messages)`.  Returns
the Python return value and the persisted store (unchanged when nothing is
written). -/
def save_current_session (store : List SessionRecord) (now category : String)
    (messages : List ChatMessage) : Bool × List SessionRecord :=
  if messages ≠ [] then
    let all := store ++ [⟨now, category, messages⟩]
    let all := if max_sessions < all.length then all.drop (all.length - max_sessions) else all
    (true, all)
  else (false, store)

/-- Embeds `SessionManager.load_session(session_index)` from session_manager.py:
returns the Python return value together with the live transcript and
active category after the call (the persisted store is not written). -/
def load_session (store : List SessionRecord) (session_index : Int)
    (messages : List ChatMessage) (category : String) :
    Bool × List ChatMessage × String :=
  if 0 ≤ session_index ∧ session_index < (store.length : Int) then
    match store[session_index.toNat]? with
    | some s => (true, s.messages, s.category)
    | none => (false, messages, category)
  else (false, messages, category)

/-- Embeds `SessionManager.delete_session(session_index)` from session_manager.py:
returns the Python return value together with the persisted store after
the call. -/
def delete_session (store : List SessionRecord) (session_index : Int) :
    Bool × List SessionRecord :=
  if 0 ≤ session_index ∧ session_index < (store.length : Int) then
    (true, store.eraseIdx session_index.toNat)
  else (false, store)

/-! ## Lemmas about the sanitization pipeline -/

/-- Predicate for the first character being whitespace. -/
def startsWs : List Char → Bool
  | [] => false
  | c :: _ => isPySpace c

/-- Predicate for the last character being whitespace. -/
def endsWs (l : List Char) : Bool := startsWs l.reverse

/-- Predicate for whitespace-normal form: every whitespace character is a
single space not followed by further whitespace. -/
def normalizedWs : List Char → Bool
  | [] => true
  | c :: rest => (!isPySpace c || (c = ' ' && !startsWs rest)) && normalizedWs rest

theorem mem_collapseWsAux {c : Char} :
    ∀ {b : Bool} {l : List Char}, c ∈ collapseWsAux b l → c = ' ' ∨ c ∈ l := by
  intro b l
  induction l generalizing b with
  | nil =>
    intro h
    rw [show collapseWsAux b [] = [] from by cases b <;> rfl] at h
    exact absurd h (List.not_mem_nil c)
  | cons d rest ih =>
    intro h
    by_cases hd : isPySpace d = true
    · cases b with
      | true =>
        rw [show collapseWsAux true (d :: rest) = collapseWsAux true rest from by
          simp [collapseWsAux, hd]] at h
        rcases ih h with he | hm
        · exact Or.inl he
        · exact Or.inr (List.mem_cons_of_mem d hm)
      | false =>
        rw [show collapseWsAux false (d :: rest) = ' ' :: collapseWsAux true rest from by
          simp [collapseWsAux, hd]] at h
        rcases List.mem_cons.mp h with he | hm
        · exact Or.inl he
        · rcases ih hm with he | hm2
          · exact Or.inl he
          · exact Or.inr (List.mem_cons_of_mem d hm2)
    · rw [show collapseWsAux b (d :: rest) = d :: collapseWsAux false rest from by
        simp [collapseWsAux, hd]] at h
      rcases List.mem_cons.mp h with he | hm
      · exact Or.inr (he ▸ List.mem_cons_self d rest)
      · rcases ih hm with he | hm2
        · exact Or.inl he
        · exact Or.inr (List.mem_cons_of_mem d hm2)

theorem mem_pyStrip {c : Char} {l : List Char} (h : c ∈ pyStrip l) : c ∈ l := by
  unfold pyStrip at h
  rw [List.mem_reverse] at h
  have h2 := (List.dropWhile_suffix (p := isPySpace)).subset h
  rw [List.mem_reverse] at h2
  exact (List.dropWhile_suffix (p := isPySpace)).subset h2

theorem normalizedWs_collapseWsAux (l : List Char) :
    normalizedWs (collapseWsAux false l) = true ∧
    normalizedWs (collapseWsAux true l) = true ∧
    startsWs (collapseWsAux true l) = false := by
  induction l with
  | nil => exact ⟨rfl, rfl, rfl⟩
  | cons d rest ih =>
    obtain ⟨ih1, ih2, ih3⟩ := ih
    by_cases hd : isPySpace d = true
    · refine ⟨?_, ?_, ?_⟩
      · simp only [collapseWsAux, hd, if_true, if_false, normalizedWs]
        simp [ih2, ih3]
      · simp only [collapseWsAux, hd, if_true]
        exact ih2
      · simp only [collapseWsAux, hd, if_true]
        exact ih3
    · refine ⟨?_, ?_, ?_⟩ <;> simp only [collapseWsAux, hd, if_false, normalizedWs, startsWs]
      · simp [hd, ih1]
      · simp [hd, ih1]
      · simp [hd]

theorem collapseWsAux_eq_self :
    ∀ (l : List Char), normalizedWs l = true →
      collapseWsAux false l = l ∧ (startsWs l = false → collapseWsAux true l = l) := by
  intro l
  induction l with
  | nil => intro _; exact ⟨rfl, fun _ => rfl⟩
  | cons d rest ih =>
    intro h
    simp only [normalizedWs, Bool.and_eq_true] at h
    obtain ⟨hhead, htail⟩ := h
    obtain ⟨ih1, ih2⟩ := ih htail
    by_cases hd : isPySpace d = true
    · have hsp : d = ' ' ∧ startsWs rest = false := by
        simp [hd] at hhead
        exact ⟨hhead.1, by simpa using hhead.2⟩
      refine ⟨?_, ?_⟩
      · simp only [collapseWsAux, hd, if_true]
        simp only [Bool.false_eq_true, if_false]
        rw [ih2 hsp.2, hsp.1]
      · intro hstart
        exact absurd hstart (by simp [startsWs, hd])
    · refine ⟨?_, fun _ => ?_⟩ <;> simp [collapseWsAux, hd] <;> rw [ih1]

theorem startsWs_collapseWs {l : List Char} (h : startsWs l = false) :
    startsWs (collapseWs l) = false := by
  cases l with
  | nil => rfl
  | cons c rest =>
    have hc : isPySpace c = false := h
    simp only [collapseWs, collapseWsAux, hc, if_false]
    exact hc

theorem startsWs_append (l₁ l₂ : List Char) :
    startsWs (l₁ ++ l₂) = if l₁.isEmpty then startsWs l₂ else startsWs l₁ := by
  cases l₁ <;> simp [startsWs]

theorem endsWs_cons (d : Char) (rest : List Char) :
    endsWs (d :: rest) = if rest.isEmpty then isPySpace d else endsWs rest := by
  unfold endsWs
  rw [List.reverse_cons, startsWs_append]
  cases rest <;> simp [startsWs]

theorem endsWs_cons_of_ne {d : Char} {X : List Char} (hX : X ≠ []) :
    endsWs (d :: X) = endsWs X := by
  cases X with
  | nil => exact absurd rfl hX
  | cons y ys => rw [endsWs_cons]; simp

theorem endsWs_collapseWsAux :
    ∀ (l : List Char) (b : Bool), endsWs l = false →
      (l ≠ [] → collapseWsAux b l ≠ []) ∧ endsWs (collapseWsAux b l) = false := by
  intro l
  induction l with
  | nil => intro b _; exact ⟨fun h => absurd rfl h, rfl⟩
  | cons d rest ih =>
    intro b h
    cases rest with
    | nil =>
      have hd : isPySpace d = false := by simpa [endsWs_cons] using h
      cases b <;>
        refine ⟨fun _ => ?_, ?_⟩ <;>
        simp [collapseWsAux, hd, endsWs_cons, endsWs, startsWs]
    | cons e rs =>
      have htail : endsWs (e :: rs) = false := by
        simpa [endsWs_cons] using h
      by_cases hd : isPySpace d = true
      · obtain ⟨ihne, ihend⟩ := ih true htail
        have hne : collapseWsAux true (e :: rs) ≠ [] := ihne (by simp)
        cases b with
        | true =>
          have heq : collapseWsAux true (d :: e :: rs) = collapseWsAux true (e :: rs) := by
            simp [collapseWsAux, hd]
          rw [heq]
          exact ⟨fun _ => hne, ihend⟩
        | false =>
          have heq : collapseWsAux false (d :: e :: rs) = ' ' :: collapseWsAux true (e :: rs) := by
            simp [collapseWsAux, hd]
          rw [heq]
          refine ⟨fun _ => by simp, ?_⟩
          rw [endsWs_cons_of_ne hne]
          exact ihend
      · obtain ⟨ihne, ihend⟩ := ih false htail
        have hne : collapseWsAux false (e :: rs) ≠ [] := ihne (by simp)
        have heq : collapseWsAux b (d :: e :: rs) = d :: collapseWsAux false (e :: rs) := by
          simp [collapseWsAux, hd]
        rw [heq]
        refine ⟨fun _ => by simp, ?_⟩
        rw [endsWs_cons_of_ne hne]
        exact ihend

theorem startsWs_dropWhile (l : List Char) :
    startsWs (l.dropWhile isPySpace) = false := by
  induction l with
  | nil => rfl
  | cons c rest ih =>
    by_cases h : isPySpace c = true
    · rw [List.dropWhile_cons_of_pos h]; exact ih
    · rw [List.dropWhile_cons_of_neg (by simp [h])]
      exact eq_false_of_ne_true (by simpa [startsWs] using h)

theorem startsWs_pyStrip (l : List Char) : startsWs (pyStrip l) = false := by
  have hsuf := List.dropWhile_suffix (l := (l.dropWhile isPySpace).reverse) (p := isPySpace)
  obtain ⟨t, ht⟩ := hsuf
  have hpre : pyStrip l ++ t.reverse = l.dropWhile isPySpace := by
    unfold pyStrip
    rw [← List.reverse_append, ht, List.reverse_reverse]
  rcases hx : pyStrip l with _ | ⟨y, ys⟩
  · rfl
  · have : l.dropWhile isPySpace = y :: (ys ++ t.reverse) := by
      rw [← hpre, hx]; simp
    have hy := startsWs_dropWhile l
    rw [this] at hy
    exact hy

theorem endsWs_pyStrip (l : List Char) : endsWs (pyStrip l) = false := by
  unfold endsWs pyStrip
  rw [List.reverse_reverse]
  exact startsWs_dropWhile _

theorem dropWhile_eq_self_of_startsWs {l : List Char} (h : startsWs l = false) :
    l.dropWhile isPySpace = l := by
  cases l with
  | nil => rfl
  | cons c rest => exact List.dropWhile_cons_of_neg (by simp [show isPySpace c = false from h])

theorem pyStrip_eq_self {l : List Char} (h1 : startsWs l = false) (h2 : endsWs l = false) :
    pyStrip l = l := by
  unfold pyStrip
  rw [dropWhile_eq_self_of_startsWs h1, dropWhile_eq_self_of_startsWs h2,
    List.reverse_reverse]

theorem char_toLower_eq_lt {c : Char} (h : Char.toLower c = '<') : c = '<' := by
  by_cases hn : c.toNat ≥ 65 ∧ c.toNat ≤ 90
  · exfalso
    have hv : (c.toNat + 32).isValidChar := Or.inl (by omega)
    have ht : (Char.ofNat (c.toNat + 32)).toNat = c.toNat + 32 := by
      unfold Char.ofNat
      rw [dif_pos hv]
      unfold Char.ofNatAux
      simp [Char.toNat, UInt32.toNat, BitVec.toNat_ofNatLt]
    simp only [Char.toLower, hn, and_self, if_true] at h
    rw [h] at ht
    have h60 : ('<').toNat = 60 := by decide
    omega
  · simp only [Char.toLower] at h
    rw [if_neg hn] at h
    exact h

theorem removeTagsAux_eq_self : ∀ (l : List Char), '<' ∉ l → removeTagsAux none l = l := by
  intro l
  induction l with
  | nil => intro _; rfl
  | cons c rest ih =>
    intro h
    have hc : ¬(c = '<') := fun hc => h (hc ▸ List.mem_cons_self c rest)
    simp only [removeTagsAux, if_neg hc]
    rw [ih (fun hm => h (List.mem_cons_of_mem c hm))]

theorem ciStarts_script_eq_false {c : Char} (rest : List Char) (hc : ¬(c = '<')) :
    ciStarts ("<script".data) (c :: rest) = false := by
  have hdata : ("<script".data) = '<' :: "script".data := rfl
  rw [hdata, ciStarts]
  have : ¬(Char.toLower c = '<') := fun he => hc (char_toLower_eq_lt he)
  simp [this]

theorem removeScriptsFuel_eq_self :
    ∀ (fuel : Nat) (l : List Char), '<' ∉ l → removeScriptsFuel fuel l = l := by
  intro fuel
  induction fuel with
  | zero => intro l _; rfl
  | succ n ih =>
    intro l h
    cases l with
    | nil => rfl
    | cons c rest =>
      have hc : ¬(c = '<') := fun hc => h (hc ▸ List.mem_cons_self c rest)
      simp only [removeScriptsFuel, ciStarts_script_eq_false rest hc, Bool.false_eq_true,
        if_false]
      rw [ih rest (fun hm => h (List.mem_cons_of_mem c hm))]

theorem mem_sanitize_stage {c : Char} {l : List Char} (h : c ∈ collapseWs (pyStrip l)) :
    c = ' ' ∨ c ∈ l := by
  rcases mem_collapseWsAux h with he | hm
  · exact Or.inl he
  · exact Or.inr (mem_pyStrip hm)

theorem sanitizeList_eq_collapse {l : List Char} (h : '<' ∉ l) :
    sanitizeList l = collapseWs (pyStrip l) := by
  have h2 : '<' ∉ collapseWs (pyStrip l) := by
    intro hm
    rcases mem_sanitize_stage hm with he | hm2
    · exact absurd he (by decide)
    · exact h hm2
  unfold sanitizeList
  rw [show removeTags (collapseWs (pyStrip l)) = collapseWs (pyStrip l) from
    removeTagsAux_eq_self _ h2]
  exact removeScriptsFuel_eq_self _ _ h2

theorem sanitizeList_idem {l : List Char} (h : '<' ∉ l) :
    sanitizeList (sanitizeList l) = sanitizeList l := by
  rw [sanitizeList_eq_collapse h]
  have hlt : '<' ∉ collapseWs (pyStrip l) := by
    intro hm
    rcases mem_sanitize_stage hm with he | hm2
    · exact absurd he (by decide)
    · exact h hm2
  have hstart : startsWs (collapseWs (pyStrip l)) = false :=
    startsWs_collapseWs (startsWs_pyStrip l)
  have hend : endsWs (collapseWs (pyStrip l)) = false :=
    (endsWs_collapseWsAux (pyStrip l) false (endsWs_pyStrip l)).2
  have hnorm : normalizedWs (collapseWs (pyStrip l)) = true :=
    (normalizedWs_collapseWsAux (pyStrip l)).1
  rw [sanitizeList_eq_collapse hlt, pyStrip_eq_self hstart hend]
  exact (collapseWsAux_eq_self _ hnorm).1

/-! ## Claims -/

/-- C1: for every run of `_chat_ollama` in which the availability probe
reports available throughout and the first two POSTs to `/api/generate`
return a non-200 status while the third returns 200, the call returns the
third response's text, makes exactly 3 POST attempts, and sleeps 1.0s
before the second attempt and 2.0s before the third (base delay 1.0s,
doubling per attempt). -/
theorem claim_C1 (env : OllamaEnv) (m u : String)
    (hAvail : ∀ i, env.avail i = true)
    (s1 : Nat) (j1 : Option String) (t1 : String)
    (s2 : Nat) (j2 : Option String) (t2 : String)
    (j3 : Option String) (t3 : String)
    (h1 : env.post 0 = .reply s1 j1 t1) (hs1 : s1 ≠ 200)
    (h2 : env.post 1 = .reply s2 j2 t2) (hs2 : s2 ≠ 200)
    (h3 : env.post 2 = .reply 200 j3 t3) :
    chat_ollama env m u =
      ⟨pyStripStr (j3.getD "No response received"), 3, [1, 2]⟩ := by
  have hr : List.range (2 + 1) = [0, 1, 2] := rfl
  rw [chat_ollama, hr]
  simp [chatOllamaLoop, hAvail 0, hAvail 1, hAvail 2, h1, h2, h3, hs1, hs2]

/-- Witness for C1 at a concrete simulated endpoint. -/
theorem claim_C1_witness :
    chat_ollama
      ⟨fun _ => true,
        fun i =>
          if i = 0 then .reply 500 none "err0"
          else if i = 1 then .reply 503 none "err1"
          else .reply 200 (some "All good") "ok"⟩
      "gemma2:4b" "http://localhost:11434" = ⟨"All good", 3, [1, 2]⟩ :=
  (claim_C1
    ⟨fun _ => true,
      fun i =>
        if i = 0 then .reply 500 none "err0"
        else if i = 1 then .reply 503 none "err1"
        else .reply 200 (some "All good") "ok"⟩
    "gemma2:4b" "http://localhost:11434" (fun _ => rfl)
    500 none "err0" 503 none "err1" (some "All good") "ok"
    rfl (by decide) rfl (by decide) rfl).trans (by decide)

/-- C2: for every call of `_chat_ollama` in which the POST raises a
connection-refused error on the first attempt, the call returns right
after that attempt — one POST, no backoff sleep — with a message naming
the configured base URL. -/
theorem claim_C2 (env : OllamaEnv) (m u : String)
    (hAvail : env.avail 0 = true)
    (hPost : env.post 0 = .connectExc) :
    chat_ollama env m u =
      ⟨"Cannot connect to Ollama at " ++ u ++
        ". Please ensure Ollama is running with: ollama serve", 1, []⟩ := by
  have hr : List.range (2 + 1) = [0, 1, 2] := rfl
  rw [chat_ollama, hr]
  simp [chatOllamaLoop, hAvail, hPost]

/-- Witness for C2 at a concrete simulated connection-refused endpoint. -/
theorem claim_C2_witness :
    chat_ollama ⟨fun _ => true, fun _ => .connectExc⟩ "gemma2:4b" "http://localhost:11434" =
      ⟨"Cannot connect to Ollama at http://localhost:11434. Please ensure Ollama is running with: ollama serve",
        1, []⟩ :=
  (claim_C2 ⟨fun _ => true, fun _ => .connectExc⟩ "gemma2:4b" "http://localhost:11434"
    rfl rfl).trans (by decide)

/-- C3: saving with zero messages writes nothing and returns false; after
every save that returns true the persisted store holds at most
`max_sessions` (50) records and is a suffix of the old store extended by
the new record (the excess dropped oldest-first). -/
theorem claim_C3 (store : List SessionRecord) (now category : String)
    (messages : List ChatMessage) :
    (messages = [] → save_current_session store now category messages = (false, store)) ∧
    ((save_current_session store now category messages).1 = true →
      (save_current_session store now category messages).2.length ≤ max_sessions ∧
      (save_current_session store now category messages).2 <:+
        store ++ [⟨now, category, messages⟩]) := by
  constructor
  · intro h
    simp [save_current_session, h]
  · intro h
    by_cases hm : messages = []
    · simp [save_current_session, hm] at h
    · have hsave : save_current_session store now category messages =
          (true,
            if max_sessions < (store ++ [(⟨now, category, messages⟩ : SessionRecord)]).length
            then (store ++ [(⟨now, category, messages⟩ : SessionRecord)]).drop
              ((store ++ [(⟨now, category, messages⟩ : SessionRecord)]).length - max_sessions)
            else store ++ [(⟨now, category, messages⟩ : SessionRecord)]) := by
        rw [save_current_session, if_pos hm]
      rw [hsave]
      by_cases hlen :
          max_sessions < (store ++ [(⟨now, category, messages⟩ : SessionRecord)]).length
      · rw [if_pos hlen]
        refine ⟨?_, List.drop_suffix _ _⟩
        rw [List.length_drop]
        omega
      · rw [if_neg hlen]
        refine ⟨?_, List.suffix_refl _⟩
        simp only [not_lt] at hlen
        exact hlen

/-- Witness for C3 at concrete transcripts. -/
theorem claim_C3_witness :
    save_current_session [] "2024-01-01T00:00:00" "Behavioral Questions" [] = (false, []) ∧
    (save_current_session [] "2024-01-01T00:00:00" "Behavioral Questions"
      [⟨"user", "hi"⟩]).2.length ≤ max_sessions :=
  ⟨(claim_C3 [] "2024-01-01T00:00:00" "Behavioral Questions" []).1 rfl,
   ((claim_C3 [] "2024-01-01T00:00:00" "Behavioral Questions" [⟨"user", "hi"⟩]).2
      (by decide)).1⟩

/-- C6: the availability probe returns true exactly for a 200 reply in
which at least one listed model's name starts with the configured model
name; every exception during the probe yields false (the probe never
propagates exceptions, being a total boolean function). -/
theorem claim_C6 (m : String) (o : TagsOutcome) :
    (is_ollama_available m o = true ↔
      ∃ models, o = .reply 200 models ∧
        models.any (fun name => startsWithList m.data (name.getD "").data) = true) ∧
    (∀ e, is_ollama_available m (.exc e) = false) := by
  refine ⟨?_, fun e => rfl⟩
  cases o with
  | reply status models =>
    by_cases h : status = 200
    · subst h
      simp only [is_ollama_available, if_pos rfl]
      constructor
      · intro hany
        exact ⟨models, rfl, hany⟩
      · rintro ⟨ms, hEq, hany⟩
        cases hEq
        exact hany
    · simp only [is_ollama_available, if_neg h]
      constructor
      · intro hfalse
        exact absurd hfalse (by simp)
      · rintro ⟨ms, hEq, _⟩
        cases hEq
        exact absurd rfl h
  | exc e =>
    simp only [is_ollama_available]
    constructor
    · intro hfalse
      exact absurd hfalse (by simp)
    · rintro ⟨ms, hEq, _⟩
      exact absurd hEq (by simp)

/-- C7: the provider constructed at startup is Hosted-API (openai) mode
exactly when `OPENAI_API_KEY` is present and non-blank; the local-server
base URL and model name are taken from the environment with the fixed
defaults when unset. -/
theorem claim_C7 (env : String → Option String) :
    ((llm_provider_init env).provider = .openai ↔
      ∃ key, env "OPENAI_API_KEY" = some key ∧ key ≠ "" ∧ pyStrip key.data ≠ []) ∧
    (llm_provider_init env).ollamaBaseUrl =
      (env "OLLAMA_BASE_URL").getD "http://localhost:11434" ∧
    (llm_provider_init env).ollamaModel = (env "OLLAMA_MODEL").getD "gemma2:4b" := by
  cases hk : env "OPENAI_API_KEY" with
  | none =>
    simp only [llm_provider_init, hk]
    refine ⟨?_, trivial, trivial⟩
    simp
  | some key =>
    by_cases h : key ≠ "" ∧ pyStrip key.data ≠ []
    · simp only [llm_provider_init, hk, if_pos h]
      exact ⟨⟨fun _ => ⟨key, rfl, h.1, h.2⟩, fun _ => trivial⟩, trivial, trivial⟩
    · simp only [llm_provider_init, hk, if_neg h]
      refine ⟨?_, trivial, trivial⟩
      constructor
      · intro hfalse
        exact absurd hfalse (by simp)
      · rintro ⟨k, hEq, hk1, hk2⟩
        rw [Option.some_inj] at hEq
        cases hEq
        exact (h ⟨hk1, hk2⟩).elim

/-- C8: for every store and every index outside `[0, len(store))` —
including every index when the store is empty — `load_session` and
`delete_session` both return false and leave the live transcript, the
active category, and the persisted store unchanged. -/
theorem claim_C8 (store : List SessionRecord) (idx : Int)
    (messages : List ChatMessage) (category : String)
    (h : idx < 0 ∨ (store.length : Int) ≤ idx) :
    load_session store idx messages category = (false, messages, category) ∧
    delete_session store idx = (false, store) := by
  have hcond : ¬(0 ≤ idx ∧ idx < (store.length : Int)) := by omega
  rw [load_session, if_neg hcond, delete_session, if_neg hcond]
  exact ⟨rfl, rfl⟩

/-- Witness for C8 on the empty store at index 0. -/
theorem claim_C8_witness :
    load_session [] 0 [⟨"user", "x"⟩] "Behavioral Questions" =
      (false, [⟨"user", "x"⟩], "Behavioral Questions") ∧
    delete_session [] 0 = (false, []) :=
  claim_C8 [] 0 [⟨"user", "x"⟩] "Behavioral Questions" (by decide)

/-- C9: for category "Behavioral Questions", a response lacking the word
"star" (case-insensitively) gets the STAR-method reminder appended, and a
response already containing "star" is returned unchanged. -/
theorem claim_C9 (response : String) :
    (containsSub ("star".data) (response.data.map Char.toLower) = false →
      enhance_response response "Behavioral Questions" = response ++ star_reminder) ∧
    (containsSub ("star".data) (response.data.map Char.toLower) = true →
      enhance_response response "Behavioral Questions" = response) := by
  constructor
  · intro h
    rw [enhance_response, if_pos ⟨rfl, h⟩]
  · intro h
    rw [enhance_response, if_neg (by simp [h]), if_neg (by simp), if_neg (by simp)]

/-- Witness for C9 at concrete responses. -/
theorem claim_C9_witness :
    enhance_response "Tell a concrete story." "Behavioral Questions" =
      "Tell a concrete story." ++ star_reminder ∧
    enhance_response "Use the STAR method." "Behavioral Questions" =
      "Use the STAR method." :=
  ⟨(claim_C9 "Tell a concrete story.").1 (by decide),
   (claim_C9 "Use the STAR method.").2 (by decide)⟩

/-- Witness for C6 at concrete probe outcomes. -/
theorem claim_C6_witness :
    is_ollama_available "gemma2:4b" (.reply 200 [some "gemma2:4b-q4"]) = true ∧
    is_ollama_available "gemma2:4b" (.exc .connectExc) = false :=
  ⟨(claim_C6 "gemma2:4b" (.reply 200 [some "gemma2:4b-q4"])).1.mpr
      ⟨[some "gemma2:4b-q4"], rfl, by decide⟩,
   (claim_C6 "gemma2:4b" (.exc .connectExc)).2 .connectExc⟩

/-- Witness for C7 at concrete environments. -/
theorem claim_C7_witness :
    (llm_provider_init fun v =>
      if v = "OPENAI_API_KEY" then some "sk-test" else none).provider = .openai ∧
    (llm_provider_init fun _ => none).ollamaBaseUrl = "http://localhost:11434" :=
  ⟨(claim_C7 (fun v => if v = "OPENAI_API_KEY" then some "sk-test" else none)).1.mpr
      ⟨"sk-test", rfl, by decide, by decide⟩,
   (claim_C7 (fun _ => none)).2.1⟩

/-- C10: every raw input whose sanitized form is the empty string is
reported valid by the pipeline, with the empty string as the clean text —
empty input is never rejected by any validation step. -/
theorem claim_C10 (x : String) (h : sanitizeList x.data = []) :
    sanitize_and_validate x = (true, "", "") := by
  unfold sanitize_and_validate
  rw [h]
  decide

/-- Witness for C10: a lone angle-bracket tag sanitizes to nothing. -/
theorem claim_C10_witness : sanitize_and_validate "<i>" = (true, "", "") :=
  claim_C10 "<i>" (by decide)

theorem normalizedWs_replicate {c : Char} (hc : isPySpace c = false) :
    ∀ n, normalizedWs (List.replicate n c) = true := by
  intro n
  induction n with
  | zero => rfl
  | succ k ih => rw [List.replicate_succ]; simp [normalizedWs, hc, ih]

theorem sanitizeList_replicate {c : Char} (hc : isPySpace c = false) (hlt : ¬(c = '<'))
    (n : Nat) : sanitizeList (List.replicate n c) = List.replicate n c := by
  have hmem : '<' ∉ List.replicate n c := by
    rw [List.mem_replicate]
    rintro ⟨_, he⟩
    exact hlt he.symm
  have hstart : startsWs (List.replicate n c) = false := by
    cases n with
    | zero => rfl
    | succ k => rw [List.replicate_succ]; exact hc
  have hend : endsWs (List.replicate n c) = false := by
    unfold endsWs
    rw [List.reverse_replicate]
    exact hstart
  rw [sanitizeList_eq_collapse hmem, pyStrip_eq_self hstart hend]
  exact (collapseWsAux_eq_self _ (normalizedWs_replicate hc n)).1

theorem sanitizeList_replicate_space (n : Nat) :
    sanitizeList (List.replicate n ' ') = [] := by
  have hdw : List.dropWhile isPySpace (List.replicate n ' ') = [] :=
    List.dropWhile_eq_nil_iff.mpr (by
      intro x hx
      rw [List.mem_replicate] at hx
      rw [hx.2]
      decide)
  have hstrip : pyStrip (List.replicate n ' ') = [] := by
    unfold pyStrip
    rw [hdw]
    rfl
  unfold sanitizeList
  rw [hstrip]
  rfl

/-- C5 fails as stated: an input of 5001 spaces is longer than the maximum
length, yet the pipeline sanitizes it to the empty string before
validating, reports it valid, and the backend is invoked. -/
theorem claim_C5_counterexample :
    MAX_PROMPT_LENGTH < (String.mk (List.replicate 5001 ' ')).length ∧
    (sanitize_and_validate (String.mk (List.replicate 5001 ' '))).1 = true ∧
    (process_user_input (fun _ => "resp")
      (String.mk (List.replicate 5001 ' '))).backendInvoked = true := by
  have hs : sanitizeList (String.mk (List.replicate 5001 ' ')).data = [] :=
    sanitizeList_replicate_space 5001
  refine ⟨?_, ?_, ?_⟩
  · show MAX_PROMPT_LENGTH < (List.replicate 5001 ' ').length
    rw [List.length_replicate]
    decide
  · show (sanitize_and_validate (String.mk (List.replicate 5001 ' '))).1 = true
    unfold sanitize_and_validate
    rw [hs]
    decide
  · unfold process_user_input sanitize_and_validate
    rw [hs]
    decide

/-- C5 amended: for every raw input whose SANITIZED text is longer than
the maximum length (5000 characters), the pipeline fails with the TooLong
error and the backend chat operation is never invoked. -/
theorem claim_C5 (backend : String → String) (x : String)
    (h : MAX_PROMPT_LENGTH < (sanitizeList x.data).length) :
    sanitize_and_validate x =
      (false, (⟨sanitizeList x.data⟩ : String),
        "Input too long. Maximum 5000 characters allowed.") ∧
    (process_user_input backend x).backendInvoked = false := by
  have hlen : validate_input_length (sanitizeList x.data) =
      (false, "Input too long. Maximum 5000 characters allowed.") := by
    unfold validate_input_length
    rw [if_pos h]
    decide
  have hv : validate_interview_input (sanitizeList x.data) =
      (false, "Input too long. Maximum 5000 characters allowed.") := by
    simp only [validate_interview_input]
    rw [hlen]
    rfl
  have hsv : sanitize_and_validate x =
      (false, (⟨sanitizeList x.data⟩ : String),
        "Input too long. Maximum 5000 characters allowed.") := by
    simp only [sanitize_and_validate]
    rw [hv]
  refine ⟨hsv, ?_⟩
  simp only [process_user_input]
  rw [hsv]
  rfl

/-- Witness for the amended C5 at 5001 letters. -/
theorem claim_C5_witness :
    sanitize_and_validate (String.mk (List.replicate 5001 'a')) =
      (false, (⟨sanitizeList (String.mk (List.replicate 5001 'a')).data⟩ : String),
        "Input too long. Maximum 5000 characters allowed.") ∧
    (process_user_input (fun _ => "resp")
      (String.mk (List.replicate 5001 'a'))).backendInvoked = false :=
  claim_C5 (fun _ => "resp") (String.mk (List.replicate 5001 'a'))
    (by
      show MAX_PROMPT_LENGTH < (sanitizeList (List.replicate 5001 'a')).length
      rw [sanitizeList_replicate (by decide) (by decide) 5001, List.length_replicate]
      decide)

/-- C4 fails as stated: sanitization is not idempotent, because removing
an angle-bracket tag can join the two spaces around it into a run that
only a second sanitization collapses. -/
theorem claim_C4_counterexample :
    sanitize_input (sanitize_input "a <b> c") ≠ sanitize_input "a <b> c" := by decide

/-- C4 amended: on every input string containing no angle-bracket opener
character, the sanitization pipeline is idempotent. -/
theorem claim_C4 (x : String) (h : '<' ∉ x.data) :
    sanitize_input (sanitize_input x) = sanitize_input x := by
  show (⟨sanitizeList (sanitize_input x).data⟩ : String) = (⟨sanitizeList x.data⟩ : String)
  have hd : (sanitize_input x).data = sanitizeList x.data := rfl
  rw [hd, sanitizeList_idem h]

/-- Witness for the amended C4. -/
theorem claim_C4_witness :
    sanitize_input (sanitize_input "  hello   world  ") =
      sanitize_input "  hello   world  " :=
  claim_C4 "  hello   world  " (by decide)

end Sprint1
